import Mathlib

/-!
Verification of the Pixel Cat NFT generator (src/generate.py).

The script is modelled as a shallow embedding: pure Python helpers become
Lean functions with the same names, the stateful generation loop becomes
explicit state passing over a `RunState`, and the I/O collaborators of the
script (directory listing, image loading, SHA-256, the Mersenne-Twister
random stream, and the wall clock) become function-valued fields of an
`Env` record, so that every theorem quantifies over their behaviour.

Modelling conventions:
  - `random.Random(n)` is modelled by an abstract stream `Env.R n : Nat → Nat`
    giving the sequence of raw draws of the generator seeded with `n`;
    `rng.choice xs` consumes one draw `v` and returns `xs[v % xs.length]`,
    `rng.randint 0 255` consumes one draw `v` and returns `v % 256`.
  - `hashlib.sha256(...).hexdigest()` is an abstract function `Env.sha256`.
  - `datetime.now(timezone.utc).isoformat()` is an abstract stream
    `Env.now : Nat → String` indexed by how many items were accepted so far.
  - File writes are recorded as the list of file names written, and the
    content of the final `metadata_index.json` is the `index` field of the
    run result.
  - A PIL image is modelled by its alpha channel, its grayscale conversion
    and whether it has an alpha band, which is what `image_to_mask` needs;
    `Image.alpha_composite` is an abstract function `Env.alphaComposite`.
-/

namespace NFTGen

/-- A PIL image, reduced to the data the script inspects: whether the image
has an alpha band, the pixel values of its alpha channel, and the pixel
values of its grayscale (`convert("L")`) conversion. -/
structure Img where
  hasAlpha : Bool
  alphaCh : List Nat
  grayCh : List Nat
deriving DecidableEq

/-- `hexVal c` is the value of one hexadecimal digit, as accepted by
Python `int(_, 16)` (both cases accepted).  Characters outside the hex
alphabet raise in Python; the model returns 0 for them, and no claim
exercises that case. -/
def hexVal (c : Char) : Nat :=
  if '0' ≤ c ∧ c ≤ '9' then c.toNat - '0'.toNat
  else if 'a' ≤ c ∧ c ≤ 'f' then c.toNat - 'a'.toNat + 10
  else if 'A' ≤ c ∧ c ≤ 'F' then c.toNat - 'A'.toNat + 10
  else 0

/-- Hexadecimal digits of `n`, lowercase, most significant first, as
produced by the Python format specifier `x`. -/
def toHexDigits (n : Nat) : List Char :=
  if _h : n < 16 then [Nat.digitChar n]
  else toHexDigits (n / 16) ++ [Nat.digitChar (n % 16)]
termination_by n
decreasing_by
  exact Nat.div_lt_self (by omega) (by omega)

/-- Left-pad a digit list with `'0'` to width 2, as the format specifier
`02x` does. -/
def padLeft2 (ds : List Char) : List Char :=
  List.replicate (2 - ds.length) '0' ++ ds

/-- `hex_from_rgb` of the script: `"#{:02x}{:02x}{:02x}".format(*rgb)`. -/
def hex_from_rgb (rgb : Nat × Nat × Nat) : String :=
  String.mk ('#' :: (padLeft2 (toHexDigits rgb.1) ++
    padLeft2 (toHexDigits rgb.2.1) ++ padLeft2 (toHexDigits rgb.2.2)))

/-- `rgb_from_hex` of the script: strip leading `#` characters
(`str.lstrip("#")`), then parse the character pairs at offsets 0, 2, 4 as
base-16 integers. -/
def rgb_from_hex (hexstr : String) : Nat × Nat × Nat :=
  let hs := hexstr.toList.dropWhile (fun c => c == '#')
  (16 * hexVal (hs.getD 0 '0') + hexVal (hs.getD 1 '0'),
   16 * hexVal (hs.getD 2 '0') + hexVal (hs.getD 3 '0'),
   16 * hexVal (hs.getD 4 '0') + hexVal (hs.getD 5 '0'))

/-- The sixteen characters a lowercase hex byte rendering can contain. -/
def hexLowerAlphabet : List Char :=
  "0123456789abcdef".toList

/-- `image_to_mask` of the script: threshold the alpha channel when the
image has an alpha band, otherwise threshold the grayscale conversion;
pixels strictly above the threshold (default 10) become 255, others 0. -/
def image_to_mask (img : Img) (threshold : Nat := 10) : List Nat :=
  if img.hasAlpha then
    img.alphaCh.map (fun p => if p > threshold then 255 else 0)
  else
    img.grayCh.map (fun p => if p > threshold then 255 else 0)

/-- `color_layer_from_mask` of the script: an RGBA image fully opaque in
the chosen color whose alpha channel is then replaced by the mask
(`putalpha`); the grayscale conversion of a solid color block is its
luminance. -/
def color_layer_from_mask (size : Nat × Nat) (mask : List Nat)
    (color_rgb : Nat × Nat × Nat) : Img :=
  { hasAlpha := true
    alphaCh := mask
    grayCh := List.replicate (size.1 * size.2)
      ((299 * color_rgb.1 + 587 * color_rgb.2.1 + 114 * color_rgb.2.2) / 1000) }

/-- `Image.new("RGBA", (res, res), (255, 255, 255, 0))`: the fully
transparent canvas the compositor starts from when no background layer was
selected. -/
def newTransparentRGBA (res : Nat) : Img :=
  { hasAlpha := true
    alphaCh := List.replicate (res * res) 0
    grayCh := List.replicate (res * res) 255 }

/-- The asset catalog: layer name to the sorted list of image file names,
as a key-value list built in insertion order (a Python dict). -/
def AssetsMap : Type := List (String × List String)

/-- `assets_map.get(layer, [])` on the catalog dict. -/
def assetsGet (m : AssetsMap) (k : String) : List String :=
  match List.find? (fun p => p.1 == k) m with
  | some p => p.2
  | none => []

/-- The external collaborators and configuration of one
`generate_collection` call. -/
structure Env where
  /-- Configured layer order (`layers_order`). -/
  layers_order : List String
  /-- Directory scan: `list_images(assets_root / folder)`, already
  filtered to image extensions and sorted by name. -/
  listImages : String → List String
  /-- `Image.open(assets_root/layer/name).convert("RGBA")` followed by the
  nearest-neighbour resize to the configured resolution. -/
  loadRGBA : String → String → Img
  /-- `Image.open(assets_root/"masks"/name).convert("L")` followed by the
  resize, reduced to its single channel. -/
  loadMaskL : String → List Nat
  /-- `Image.alpha_composite` (source-over). -/
  alphaComposite : Img → Img → Img
  /-- `hashlib.sha256(s.encode()).hexdigest()`. -/
  sha256 : String → String
  /-- The random stream of `random.Random(n)` for each integer seed `n`. -/
  R : Nat → Nat → Nat
  /-- The random stream of `random.Random(seed)` built once at the start
  of the run (`rng_global`), including the `None` seeding case. -/
  Rglobal : Option Nat → Nat → Nat
  /-- `datetime.now(timezone.utc).isoformat()`, indexed by how many items
  were accepted before the call. -/
  now : Nat → String
  /-- The optional `--seed` argument. -/
  seed : Option Nat
  /-- The configured palette; the empty list models an absent palette
  (Python falsiness of `None` and `[]`). -/
  palette : List String
  /-- Requested item count `num`. -/
  num : Nat
  /-- Start edition id `start_id`. -/
  start_id : Nat
  /-- Square output resolution. -/
  resolution : Nat
  /-- `max_attempts_per_item` (200 by default in the script). -/
  max_attempts : Nat

/-- The default of the `max_attempts_per_item` parameter. -/
def defaultMaxAttempts : Nat := 200

/-- `gather_assets`: one catalog entry per configured layer, plus the
reserved `masks` entry. -/
def gather_assets (env : Env) : AssetsMap :=
  (env.layers_order.map (fun layer => (layer, env.listImages layer))) ++
    [("masks", env.listImages "masks")]

/-- `compute_max_combinations`: build the per-layer counts with empty
layers counted as 1, then multiply them up. -/
def compute_max_combinations (assets_map : AssetsMap) (layers_order : List String) : Nat :=
  let counts := layers_order.map (fun layer => max 1 (assetsGet assets_map layer).length)
  counts.foldl (fun total c => total * c) 1

/-- `select_asset_equal`: `None` on an empty list, otherwise `rng.choice`,
consuming the draw at index `k` of the per-attempt stream `g`. -/
def select_asset_equal (g : Nat → Nat) (k : Nat) (choices : List String) : Option String :=
  if choices.isEmpty then none
  else some (choices.getD (g k % choices.length) "")

/-- The per-layer selection loop of one attempt: for each configured layer
with at least one asset, draw one file name and load its image; layers
with no assets are skipped.  Returns the selection pairs, the loaded
images (both in configured order) and the index of the next unused draw. -/
def selectLayers (load : String → String → Img) (assets : AssetsMap) (g : Nat → Nat) :
    Nat → List String → List (String × String) × List (String × Img) × Nat
  | k, [] => ([], [], k)
  | k, layer :: rest =>
    let choices := assetsGet assets layer
    match select_asset_equal g k choices with
    | some chosen =>
      let res := selectLayers load assets g (k + 1) rest
      ((layer, chosen) :: res.1, (layer, load layer chosen) :: res.2.1, res.2.2)
    | none => selectLayers load assets g k rest

/-- The mask decision of one attempt: prefer a draw from the non-empty
`masks` folder; otherwise derive the mask from the selected `base` image;
otherwise use the all-zero mask of the target resolution.  Returns the
recorded mask choice, the mask, and the index of the next unused draw. -/
def resolveMask (env : Env) (assets : AssetsMap) (g : Nat → Nat)
    (imgs : List (String × Img)) (k : Nat) : Option String × List Nat × Nat :=
  let masks := assetsGet assets "masks"
  if masks.isEmpty then
    match imgs.lookup "base" with
    | some bimg => (none, image_to_mask bimg, k)
    | none => (none, List.replicate (env.resolution * env.resolution) 0, k)
  else
    let mc := masks.getD (g k % masks.length) ""
    (some mc, env.loadMaskL mc, k + 1)

/-- The color decision of one attempt: one draw from a configured palette,
otherwise three `randint(0, 255)` draws.  Returns the hex string, the RGB
triple and the index of the next unused draw. -/
def resolveColor (env : Env) (g : Nat → Nat) (k : Nat) :
    String × (Nat × Nat × Nat) × Nat :=
  if env.palette.isEmpty then
    let r := g k % 256
    let gr := g (k + 1) % 256
    let b := g (k + 2) % 256
    (hex_from_rgb (r, gr, b), (r, gr, b), k + 3)
  else
    let ch := env.palette.getD (g k % env.palette.length) ""
    (ch, rgb_from_hex ch, k + 1)

/-- One JSON key-value pair of the canonical combination serialization. -/
def jsonStringEntry (kv : String × String) : String :=
  "\"" ++ kv.1 ++ "\": \"" ++ kv.2 ++ "\""

/-- Insertion step of the key sort `json.dumps(..., sort_keys=True)`
performs. -/
def insertByKey (p : String × String) : List (String × String) → List (String × String)
  | [] => [p]
  | q :: qs =>
    match compare p.1 q.1 with
    | Ordering.gt => q :: insertByKey p qs
    | _ => p :: q :: qs

/-- Sort the selection pairs by key. -/
def sortByKey (l : List (String × String)) : List (String × String) :=
  l.foldr insertByKey []

/-- `json.dumps({"selected": selected}, sort_keys=True, ensure_ascii=False)`. -/
def comboString (selected : List (String × String)) : String :=
  "\x7b\"selected\": \x7b" ++
    String.intercalate ", " ((sortByKey selected).map jsonStringEntry) ++ "\x7d\x7d"

/-- Everything one attempt of the inner loop computes before the
uniqueness check. -/
structure AttemptResult where
  selected : List (String × String)
  imgs : List (String × Img)
  maskChoice : Option String
  mask : List Nat
  color_hex : String
  color_rgb : Nat × Nat × Nat
  preOverlay : Img
  canvas : Img
  combo_str : String
  hash : String

/-- The final overlay pass of the compositor: walk the configured layer
order with the `after_cat` flag, skipping everything up to and including
`"cat"`, skipping `"backgrounds"` and `"base"`, and compositing every
remaining selected layer source-over in configured order. -/
def overlayPass (comp : Img → Img → Img) (imgs : List (String × Img)) :
    Bool → Img → List String → Img
  | _, canvas, [] => canvas
  | after_cat, canvas, layer :: rest =>
    if layer == "cat" then overlayPass comp imgs true canvas rest
    else if after_cat = false then overlayPass comp imgs after_cat canvas rest
    else if layer == "backgrounds" || layer == "base" then
      overlayPass comp imgs after_cat canvas rest
    else
      match imgs.lookup layer with
      | some im => overlayPass comp imgs after_cat (comp canvas im) rest
      | none => overlayPass comp imgs after_cat canvas rest

/-- The body of one attempt, given the per-attempt random stream `g`:
select layers, resolve mask and color, compose the canvas, and hash the
canonical serialization of the selection. -/
def mkAttemptWith (env : Env) (assets : AssetsMap) (g : Nat → Nat) : AttemptResult :=
  let sres := selectLayers env.loadRGBA assets g 0 env.layers_order
  let sel0 := sres.1
  let imgs := sres.2.1
  let k0 := sres.2.2
  let mres := resolveMask env assets g imgs k0
  let maskChoice := mres.1
  let mask := mres.2.1
  let k1 := mres.2.2
  let sel1 := match maskChoice with
    | some mc => sel0 ++ [("mask", mc)]
    | none => sel0
  let cres := resolveColor env g k1
  let color_hex := cres.1
  let color_rgb := cres.2.1
  let sel2 := sel1 ++ [("color", color_hex)]
  let canvas0 := match imgs.lookup "backgrounds" with
    | some bg => bg
    | none => newTransparentRGBA env.resolution
  let color_layer := color_layer_from_mask (env.resolution, env.resolution) mask color_rgb
  let canvas1 := env.alphaComposite canvas0 color_layer
  let canvas2 := match imgs.lookup "cat" with
    | some c => env.alphaComposite canvas1 c
    | none => canvas1
  let canvas3 := overlayPass env.alphaComposite imgs false canvas2 env.layers_order
  let combo_str := comboString sel2
  { selected := sel2
    imgs := imgs
    maskChoice := maskChoice
    mask := mask
    color_hex := color_hex
    color_rgb := color_rgb
    preOverlay := canvas2
    canvas := canvas3
    combo_str := combo_str
    hash := env.sha256 combo_str }

/-- The integer the per-attempt random source is seeded with:
`(seed or 0) ^ i ^ attempts`. -/
def attemptSeed (env : Env) (i a : Nat) : Nat :=
  (env.seed.getD 0) ^^^ i ^^^ a

/-- Attempt number `a` of edition `i`: seed a fresh random source with
`(seed or 0) ^ i ^ a` and run the attempt body on its stream. -/
def mkAttempt (env : Env) (assets : AssetsMap) (i a : Nat) : AttemptResult :=
  mkAttemptWith env assets (env.R (attemptSeed env i a))

/-- One metadata attribute entry (`trait_type` / `value`). -/
structure Attribute where
  trait_type : String
  value : String
deriving DecidableEq

/-- One per-item metadata record. -/
structure Metadata where
  name : String
  description : String
  image : String
  edition : Nat
  attributes : List Attribute
  hash : String
  generated_at : String
deriving DecidableEq

/-- Zero-pad an edition number to 6 digits (`f"{i:06d}"`). -/
def pad6 (n : Nat) : String :=
  let s := toString n
  String.mk (List.replicate (6 - s.length) '0' ++ s.toList)

/-- The mutable state of the generation loop. -/
structure RunState where
  /-- Hashes of the accepted combinations (`seen_hashes`). -/
  seen : List String
  /-- Accepted metadata records (`metadata_list`). -/
  metadata : List Metadata
  /-- Count of accepted items. -/
  generated : Nat
  /-- Next edition id. -/
  i : Nat
  /-- Names of the files written so far, in write order. -/
  files : List String
  /-- How many timestamps were taken. -/
  tick : Nat
deriving DecidableEq

/-- Everything the accepted branch of the inner loop does: add the hash to
the seen set, save the image, build the attribute list and the metadata
record, write the per-item JSON, append to the index list and advance the
counters. -/
def acceptAttempt (env : Env) (st : RunState) (att : AttemptResult) : RunState :=
  let filename := "nft_" ++ pad6 st.i ++ ".png"
  let attributes := att.selected.map (fun kv => Attribute.mk kv.1 kv.2)
  let md : Metadata :=
    { name := "Pixel Cat #" ++ toString st.i
      description := "Programmatically generated Pixel Cat"
      image := filename
      edition := st.i
      attributes := attributes
      hash := att.hash
      generated_at := env.now st.tick }
  { seen := att.hash :: st.seen
    metadata := st.metadata ++ [md]
    generated := st.generated + 1
    i := st.i + 1
    files := st.files ++ [filename, "nft_" ++ pad6 st.i ++ ".json"]
    tick := st.tick + 1 }

/-- The inner retry loop from attempt number `a` with a given number of
attempts remaining: compute the attempt, discard it and retry on a hash
collision, return it otherwise. -/
def attemptsFrom (env : Env) (assets : AssetsMap) (seen : List String) (i : Nat) :
    Nat → Nat → Option AttemptResult
  | _, 0 => none
  | a, r + 1 =>
    let att := mkAttempt env assets i a
    if att.hash ∈ seen then attemptsFrom env assets seen i (a + 1) r
    else some att

/-- One edition of the outer loop, starting at attempt number `a` with `r`
attempts remaining: the updated state on success, `none` when the attempt
cap is exhausted. -/
def stepItem (env : Env) (assets : AssetsMap) (st : RunState) (a r : Nat) :
    Option RunState :=
  match attemptsFrom env assets st.seen st.i a r with
  | some att => some (acceptAttempt env st att)
  | none => none

/-- The outer generation loop:
`while generated < target and (i - start_id) < max_possible`, stopping
early when an edition exhausts its attempt cap.  The loop recurses only
when an item was accepted, so `num` units of fuel make the model exact. -/
def runLoop (env : Env) (assets : AssetsMap) (max_possible : Nat) :
    Nat → RunState → RunState
  | 0, st => st
  | fuel + 1, st =>
    if st.generated < env.num ∧ st.i - env.start_id < max_possible then
      match stepItem env assets st 1 env.max_attempts with
      | some st2 => runLoop env assets max_possible fuel st2
      | none => st
    else st

/-- The warning printed when the request exceeds the combinatorial bound. -/
def warning_message (num max_possible start_id : Nat) : String :=
  "WARNING: Requested " ++ toString num ++ " items but only " ++
    toString max_possible ++
    " unique combinations possible. Will generate at most " ++
    toString (max_possible - (start_id - 1)) ++ " items."

/-- The observable outcome of one `generate_collection` run. -/
structure RunResult where
  /-- Warnings printed before generation started. -/
  warnings : List String
  /-- Final count of generated items. -/
  generated : Nat
  /-- Content of `metadata_index.json`, written once at the end. -/
  index : List Metadata
  /-- Names of all files written, in write order. -/
  files : List String

/-- `generate_collection`: build the global random source (never used
afterwards), gather the assets, compute the combinatorial bound, warn when
the request exceeds it, run the loop from a fresh state, and write the
index of everything accepted. -/
def generate_collection (env : Env) : RunResult :=
  let _rng_global := env.Rglobal env.seed
  let assets_map := gather_assets env
  let max_possible := compute_max_combinations assets_map env.layers_order
  let warnings :=
    if env.num + env.start_id - 1 > max_possible then
      [warning_message env.num max_possible env.start_id]
    else []
  let st0 : RunState :=
    { seen := [], metadata := [], generated := 0, i := env.start_id
      files := [], tick := 0 }
  let fin := runLoop env assets_map max_possible env.num st0
  { warnings := warnings
    generated := fin.generated
    index := fin.metadata
    files := fin.files ++ ["metadata_index.json"] }

/-- A concrete image for instantiating the abstract image loader. -/
def constImg : Img :=
  { hasAlpha := true, alphaCh := [0, 200, 5, 255], grayCh := [0, 200, 5, 255] }

/-- A concrete environment with one single-asset layer, one palette color
and a start offset of 2: its combination space has exactly one element, so
every draw is forced. -/
def witEnvA : Env :=
  { layers_order := ["base"]
    listImages := fun f => if f == "base" then ["b.png"] else []
    loadRGBA := fun _ _ => constImg
    loadMaskL := fun _ => []
    alphaComposite := fun a _ => a
    sha256 := fun s => s
    R := fun _ _ => 0
    Rglobal := fun _ _ => 0
    now := fun _ => "t"
    seed := some 0
    palette := ["#ff0000"]
    num := 1
    start_id := 2
    resolution := 2
    max_attempts := 3 }

/-- A concrete environment whose hash function is constant, so that every
attempt collides with an already-seen digest. -/
def witEnvB : Env :=
  { layers_order := []
    listImages := fun _ => []
    loadRGBA := fun _ _ => constImg
    loadMaskL := fun _ => []
    alphaComposite := fun a _ => a
    sha256 := fun _ => "h"
    R := fun _ _ => 0
    Rglobal := fun _ _ => 0
    now := fun _ => "t"
    seed := none
    palette := ["#ff0000"]
    num := 1
    start_id := 1
    resolution := 2
    max_attempts := 2 }

/-- A run state of `witEnvB` whose seen set already contains the only
digest the constant hash function can produce. -/
def witStB : RunState :=
  { seen := ["h"], metadata := [], generated := 0, i := 1, files := [], tick := 0 }

/-- Drop the generation timestamp from a metadata record. -/
def stripTime (m : Metadata) : Metadata :=
  { m with generated_at := "" }

/-- Drop the generation timestamps from a run state. -/
def stripSt (st : RunState) : RunState :=
  { st with metadata := st.metadata.map stripTime }

end NFTGen

namespace NFTGen

-- Helper lemmas about the hex rendering.

theorem hexVal_digitChar : ∀ d : Nat, d < 16 → hexVal (Nat.digitChar d) = d := by
  decide

theorem digitChar_ne_hashChar : ∀ d : Nat, d < 16 → (Nat.digitChar d == '#') = false := by
  decide

theorem digitChar_mem_alphabet : ∀ d : Nat, d < 16 → Nat.digitChar d ∈ hexLowerAlphabet := by
  decide

theorem padLeft2_toHexDigits (n : Nat) (h : n < 256) :
    padLeft2 (toHexDigits n) = [Nat.digitChar (n / 16), Nat.digitChar (n % 16)] := by
  by_cases h16 : n < 16
  · rw [toHexDigits, dif_pos h16]
    have hdiv : n / 16 = 0 := Nat.div_eq_of_lt h16
    have hmod : n % 16 = n := Nat.mod_eq_of_lt h16
    simp [padLeft2, hdiv, hmod, Nat.digitChar]
  · have hdivlt : n / 16 < 16 := by omega
    rw [toHexDigits, dif_neg h16, toHexDigits, dif_pos hdivlt]
    simp [padLeft2]

/-- C9: for every byte triple, `rgb_from_hex` undoes `hex_from_rgb`, and
`hex_from_rgb` yields a 7-character lowercase `#rrggbb` string. -/
theorem hex_rgb_round_trip (r g b : Nat) (hr : r ≤ 255) (hg : g ≤ 255) (hb : b ≤ 255) :
    rgb_from_hex (hex_from_rgb (r, g, b)) = (r, g, b)
    ∧ (hex_from_rgb (r, g, b)).length = 7
    ∧ (hex_from_rgb (r, g, b)).toList.head? = some '#'
    ∧ ∀ c ∈ (hex_from_rgb (r, g, b)).toList.tail, c ∈ hexLowerAlphabet := by
  have hr' : r < 256 := by omega
  have hg' : g < 256 := by omega
  have hb' : b < 256 := by omega
  have hrd : r / 16 < 16 := by omega
  have hgd : g / 16 < 16 := by omega
  have hbd : b / 16 < 16 := by omega
  have hrm : r % 16 < 16 := Nat.mod_lt _ (by omega)
  have hgm : g % 16 < 16 := Nat.mod_lt _ (by omega)
  have hbm : b % 16 < 16 := Nat.mod_lt _ (by omega)
  have hlist : (hex_from_rgb (r, g, b)).toList =
      '#' :: [Nat.digitChar (r / 16), Nat.digitChar (r % 16),
              Nat.digitChar (g / 16), Nat.digitChar (g % 16),
              Nat.digitChar (b / 16), Nat.digitChar (b % 16)] := by
    show ('#' :: (padLeft2 (toHexDigits r) ++ padLeft2 (toHexDigits g) ++
      padLeft2 (toHexDigits b))) = _
    rw [padLeft2_toHexDigits r hr', padLeft2_toHexDigits g hg',
      padLeft2_toHexDigits b hb']
    rfl
  refine ⟨?_, ?_, ?_, ?_⟩
  · show rgb_from_hex (hex_from_rgb (r, g, b)) = (r, g, b)
    rw [rgb_from_hex, hlist]
    rw [List.dropWhile_cons]
    simp only [beq_self_eq_true, if_true, List.dropWhile_cons,
      digitChar_ne_hashChar _ hrd, Bool.false_eq_true, if_false]
    simp only [List.getD, List.get?, Option.getD_some]
    rw [hexVal_digitChar _ hrd, hexVal_digitChar _ hrm,
      hexVal_digitChar _ hgd, hexVal_digitChar _ hgm,
      hexVal_digitChar _ hbd, hexVal_digitChar _ hbm]
    have er : 16 * (r / 16) + r % 16 = r := by omega
    have eg : 16 * (g / 16) + g % 16 = g := by omega
    have eb : 16 * (b / 16) + b % 16 = b := by omega
    rw [er, eg, eb]
  · have : (hex_from_rgb (r, g, b)).length = (hex_from_rgb (r, g, b)).toList.length := rfl
    rw [this, hlist]
    rfl
  · rw [hlist]
    rfl
  · rw [hlist]
    intro c hc
    simp only [List.tail_cons, List.mem_cons, List.not_mem_nil, or_false] at hc
    rcases hc with h | h | h | h | h | h <;> subst h
    · exact digitChar_mem_alphabet _ hrd
    · exact digitChar_mem_alphabet _ hrm
    · exact digitChar_mem_alphabet _ hgd
    · exact digitChar_mem_alphabet _ hgm
    · exact digitChar_mem_alphabet _ hbd
    · exact digitChar_mem_alphabet _ hbm

/-- Witness for C9 at the concrete byte triple (7, 128, 255). -/
theorem hex_rgb_round_trip_witness :
    rgb_from_hex (hex_from_rgb (7, 128, 255)) = (7, 128, 255)
    ∧ (hex_from_rgb (7, 128, 255)).length = 7 := by
  have h := hex_rgb_round_trip 7 128 255 (by decide) (by decide) (by decide)
  exact ⟨h.1, h.2.1⟩

-- Helper lemmas about the combinatorial bound.

theorem foldl_mul_eq_mul_prod (l : List Nat) :
    ∀ acc : Nat, l.foldl (fun total c => total * c) acc = acc * l.prod := by
  induction l with
  | nil => intro acc; simp
  | cons c cs ih =>
    intro acc
    simp only [List.foldl_cons, List.prod_cons, ih (acc * c)]
    ring

theorem map_congr_mem {α β : Type} (f g : α → β) :
    ∀ l : List α, (∀ a ∈ l, f a = g a) → l.map f = l.map g := by
  intro l
  induction l with
  | nil => intro _; rfl
  | cons x xs ih =>
    intro h
    simp only [List.map_cons, h x (List.mem_cons_self x xs)]
    rw [ih (fun a ha => h a (List.mem_cons_of_mem x ha))]

theorem assetsGet_masks_cons (assets : AssetsMap) (ms : List String)
    (l : String) (h : l ≠ "masks") :
    assetsGet (("masks", ms) :: assets) l = assetsGet assets l := by
  have hbeq : (("masks", ms).1 == l) = false := by
    simp only [beq_eq_false_iff_ne]
    exact fun he => h he.symm
  show (match List.find? (fun p => p.1 == l) (("masks", ms) :: assets) with
    | some p => p.2
    | none => []) = assetsGet assets l
  rw [List.find?_cons]
  rw [hbeq]
  rfl

/-- C5: `compute_max_combinations` is exactly the product over the
configured layers of `max 1 count`, and the reserved `masks` catalog entry
does not enter the product (the color is not an input at all). -/
theorem compute_max_combinations_spec (assets : AssetsMap) (layers : List String) :
    compute_max_combinations assets layers
        = (layers.map (fun l => max 1 (assetsGet assets l).length)).prod
    ∧ ∀ ms : List String, "masks" ∉ layers →
        compute_max_combinations (("masks", ms) :: assets) layers
          = compute_max_combinations assets layers := by
  constructor
  · show (layers.map (fun layer => max 1 (assetsGet assets layer).length)).foldl
        (fun total c => total * c) 1 = _
    rw [foldl_mul_eq_mul_prod, one_mul]
  · intro ms hnm
    show (layers.map (fun layer => max 1 (assetsGet (("masks", ms) :: assets) layer).length)).foldl
        (fun total c => total * c) 1
      = (layers.map (fun layer => max 1 (assetsGet assets layer).length)).foldl
        (fun total c => total * c) 1
    rw [map_congr_mem _ _ layers]
    intro a ha
    rw [assetsGet_masks_cons assets ms a]
    exact fun he => hnm (he ▸ ha)

/-- Witness for C5: a concrete catalog where adding a `masks` entry leaves
the bound unchanged. -/
theorem compute_max_combinations_spec_witness :
    compute_max_combinations (("masks", ["m.png"]) :: [("base", ["a.png", "b.png"])])
        ["base", "eyes"]
      = compute_max_combinations [("base", ["a.png", "b.png"])] ["base", "eyes"] :=
  (compute_max_combinations_spec [("base", ["a.png", "b.png"])] ["base", "eyes"]).2
    ["m.png"] (by decide)

-- Helper lemmas about the uniqueness guard.

theorem attemptsFrom_fresh (env : Env) (assets : AssetsMap) (seen : List String)
    (i : Nat) :
    ∀ r a att, attemptsFrom env assets seen i a r = some att → att.hash ∉ seen := by
  intro r
  induction r with
  | zero => intro a att h; exact absurd h (by simp [attemptsFrom])
  | succ r ih =>
    intro a att h
    rw [attemptsFrom] at h
    by_cases hmem : (mkAttempt env assets i a).hash ∈ seen
    · rw [if_pos hmem] at h
      exact ih (a + 1) att h
    · rw [if_neg hmem] at h
      cases h
      exact hmem

theorem stepItem_spec (env : Env) (assets : AssetsMap) (st : RunState) (a r : Nat)
    (st2 : RunState) (h : stepItem env assets st a r = some st2) :
    ∃ att, att.hash ∉ st.seen ∧ st2 = acceptAttempt env st att := by
  rw [stepItem] at h
  cases hat : attemptsFrom env assets st.seen st.i a r with
  | none => rw [hat] at h; cases h
  | some att =>
    rw [hat] at h
    cases h
    exact ⟨att, attemptsFrom_fresh env assets st.seen st.i r a att hat, rfl⟩

theorem runLoop_nodup (env : Env) (assets : AssetsMap) (mp : Nat) :
    ∀ fuel st,
      (∀ h ∈ st.metadata.map (fun m => m.hash), h ∈ st.seen) →
      (st.metadata.map (fun m => m.hash)).Nodup →
      ((runLoop env assets mp fuel st).metadata.map (fun m => m.hash)).Nodup := by
  intro fuel
  induction fuel with
  | zero => intro st _ hnd; exact hnd
  | succ fuel ih =>
    intro st hsub hnd
    rw [runLoop]
    by_cases hguard : st.generated < env.num ∧ st.i - env.start_id < mp
    · rw [if_pos hguard]
      cases hstep : stepItem env assets st 1 env.max_attempts with
      | none => exact hnd
      | some st2 =>
        obtain ⟨att, hfresh, hst2⟩ := stepItem_spec env assets st 1 env.max_attempts st2 hstep
        have hmd : st2.metadata.map (fun m => m.hash)
            = st.metadata.map (fun m => m.hash) ++ [att.hash] := by
          rw [hst2]
          simp [acceptAttempt]
        have hseen : st2.seen = att.hash :: st.seen := by rw [hst2]; rfl
        apply ih st2
        · intro h hh
          rw [hmd] at hh
          rw [hseen]
          rcases List.mem_append.mp hh with hold | hnew
          · exact List.mem_cons_of_mem _ (hsub h hold)
          · simp only [List.mem_singleton] at hnew
            rw [hnew]
            exact List.mem_cons_self _ _
        · rw [hmd]
          simp only [List.nodup_append, List.nodup_cons, List.nodup_nil,
            List.disjoint_left, List.mem_singleton]
          refine ⟨hnd, by simp, ?_⟩
          intro h hold he
          rw [he] at hold
          exact hfresh (hsub att.hash hold)
    · rw [if_neg hguard]
      exact hnd

/-- C1: within one run no two accepted items share a combination hash:
the hash column of the written index is duplicate-free. -/
theorem accepted_hashes_distinct (env : Env) :
    ((generate_collection env).index.map (fun m => m.hash)).Nodup := by
  have h := runLoop_nodup env (gather_assets env)
    (compute_max_combinations (gather_assets env) env.layers_order) env.num
    { seen := [], metadata := [], generated := 0, i := env.start_id
      files := [], tick := 0 }
    (by intro x hx; simp at hx) (by simp)
  simpa [generate_collection] using h

-- Helper lemma for C8: consecutive colliding attempts are skipped with no
-- change to the seen set or to anything else.

theorem attemptsFrom_skip (env : Env) (assets : AssetsMap) (seen : List String)
    (i r : Nat) :
    ∀ k a, (∀ j, j < k → (mkAttempt env assets i (a + j)).hash ∈ seen) →
      attemptsFrom env assets seen i a (k + r) = attemptsFrom env assets seen i (a + k) r := by
  intro k
  induction k with
  | zero => intro a _; rw [Nat.zero_add, Nat.add_zero]
  | succ k ih =>
    intro a hcol
    have hnum : k + 1 + r = (k + r) + 1 := by omega
    rw [hnum, attemptsFrom]
    have h0 : (mkAttempt env assets i a).hash ∈ seen := by
      have := hcol 0 (by omega)
      rwa [Nat.add_zero] at this
    rw [if_pos h0]
    have hcol2 : ∀ j, j < k → (mkAttempt env assets i (a + 1 + j)).hash ∈ seen := by
      intro j hj
      have heq : a + 1 + j = a + (j + 1) := by omega
      rw [heq]
      exact hcol (j + 1) (by omega)
    rw [ih (a + 1) hcol2]
    have heq2 : a + 1 + k = a + (k + 1) := by omega
    rw [heq2]

/-- C8: a discarded attempt (whose hash is already in the seen set) has no
side effects: processing an edition from attempt `a` whose first `k`
attempts all collide gives exactly the same outcome, from exactly the same
unchanged state (seen set, metadata list, generated count, edition
counter, written files), as processing from attempt `a + k`. -/
theorem discarded_attempt_no_side_effects (env : Env) (assets : AssetsMap)
    (st : RunState) (a k r : Nat)
    (hcol : ∀ j, j < k → (mkAttempt env assets st.i (a + j)).hash ∈ st.seen) :
    stepItem env assets st a (k + r) = stepItem env assets st (a + k) r := by
  rw [stepItem, stepItem, attemptsFrom_skip env assets st.seen st.i r k a hcol]

/-- Witness for C8: two colliding attempts are skipped without touching
the run state. -/
theorem discarded_attempt_no_side_effects_witness :
    stepItem witEnvB [] witStB 1 (2 + 1) = stepItem witEnvB [] witStB (1 + 2) 1 :=
  discarded_attempt_no_side_effects witEnvB [] witStB 1 2 1 (by decide)

/-- C4: when an edition exhausts its attempt cap (while the loop guard
still holds), the run stops immediately: no further edition is attempted
no matter how much fuel remains, the final state is the current one, and
hence the index that gets written contains exactly the metadata of the
items completed before the stop. -/
theorem attempt_cap_stops_run (env : Env) (assets : AssetsMap) (mp fuel : Nat)
    (st : RunState)
    (hguard : st.generated < env.num ∧ st.i - env.start_id < mp)
    (hcap : stepItem env assets st 1 env.max_attempts = none) :
    runLoop env assets mp (fuel + 1) st = st ∧
    (runLoop env assets mp (fuel + 1) st).metadata = st.metadata := by
  have h1 : runLoop env assets mp (fuel + 1) st = st := by
    rw [runLoop, if_pos hguard, hcap]
  exact ⟨h1, by rw [h1]⟩

/-- Witness for C4 at a state whose seen set already contains the only
producible digest. -/
theorem attempt_cap_stops_run_witness :
    runLoop witEnvB [] 1 (0 + 1) witStB = witStB ∧
    (runLoop witEnvB [] 1 (0 + 1) witStB).metadata = witStB.metadata :=
  attempt_cap_stops_run witEnvB [] 1 0 witStB (by decide) (by decide)

-- C3: the claimed truncation bound is not what the code enforces.

/-- Counterexample for C3: with one possible combination, `start_id = 2`
and `num = 1`, the warning condition holds, the claim allows at most
`max_possible - (start_id - 1) = 0` items, yet the run generates 1. -/
theorem requested_over_bound_counterexample :
    witEnvA.num + witEnvA.start_id - 1
        > compute_max_combinations (gather_assets witEnvA) witEnvA.layers_order
    ∧ ¬ ((generate_collection witEnvA).generated
        ≤ compute_max_combinations (gather_assets witEnvA) witEnvA.layers_order
          - (witEnvA.start_id - 1)) := by
  decide

theorem runLoop_generated_le (env : Env) (assets : AssetsMap) (mp : Nat) :
    ∀ fuel st,
      st.i = env.start_id + st.generated →
      st.generated ≤ min env.num mp →
      (runLoop env assets mp fuel st).generated ≤ min env.num mp := by
  intro fuel
  induction fuel with
  | zero => intro st _ hle; exact hle
  | succ fuel ih =>
    intro st hi hle
    rw [runLoop]
    by_cases hguard : st.generated < env.num ∧ st.i - env.start_id < mp
    · rw [if_pos hguard]
      cases hstep : stepItem env assets st 1 env.max_attempts with
      | none => exact hle
      | some st2 =>
        obtain ⟨att, _, hst2⟩ := stepItem_spec env assets st 1 env.max_attempts st2 hstep
        have hgen2 : st2.generated = st.generated + 1 := by rw [hst2]; rfl
        have hi2 : st2.i = env.start_id + st2.generated := by
          rw [hst2]
          show st.i + 1 = env.start_id + (st.generated + 1)
          omega
        have hltmp : st.generated < mp := by
          have := hguard.2
          omega
        exact ih st2 hi2 (by omega)
    · rw [if_neg hguard]
      exact hle

/-- C3 (amended): whenever the requested count plus the start offset
exceeds the combinatorial bound, the warning is emitted before generation
begins, and the run generates at most `min num max_possible` items.  The
bound `max_possible - (start_id - 1)` printed in the warning text is not
what the loop enforces. -/
theorem requested_over_bound_amended (env : Env)
    (h : env.num + env.start_id - 1
      > compute_max_combinations (gather_assets env) env.layers_order) :
    (generate_collection env).warnings ≠ []
    ∧ (generate_collection env).generated
        ≤ min env.num (compute_max_combinations (gather_assets env) env.layers_order) := by
  constructor
  · simp only [generate_collection, if_pos h]
    exact List.cons_ne_nil _ _
  · have hb := runLoop_generated_le env (gather_assets env)
      (compute_max_combinations (gather_assets env) env.layers_order) env.num
      { seen := [], metadata := [], generated := 0, i := env.start_id
        files := [], tick := 0 }
      (by show env.start_id = env.start_id + 0; omega) (Nat.zero_le _)
    simpa [generate_collection] using hb

/-- Witness for C3 (amended) at the concrete over-requested environment. -/
theorem requested_over_bound_amended_witness :
    (generate_collection witEnvA).warnings ≠ []
    ∧ (generate_collection witEnvA).generated
        ≤ min witEnvA.num (compute_max_combinations (gather_assets witEnvA) witEnvA.layers_order) :=
  requested_over_bound_amended witEnvA (by decide)

-- Helper lemmas for the overlay pass.

theorem lookup_isSome_iff_contains (imgs : List (String × Img)) (l : String) :
    (imgs.lookup l).isSome = (imgs.map Prod.fst).contains l := by
  induction imgs with
  | nil => rfl
  | cons p ps ih =>
    obtain ⟨k, v⟩ := p
    simp only [List.lookup, List.map_cons, List.contains_cons]
    cases hb : l == k
    · simpa using ih
    · simp

theorem overlayPass_true_eq (comp : Img → Img → Img) (imgs : List (String × Img)) :
    ∀ (L : List String) (canvas : Img),
      overlayPass comp imgs true canvas L =
        (L.filter (fun l => !(l == "cat") && !(l == "backgrounds") && !(l == "base")
            && (imgs.map Prod.fst).contains l)).foldl
          (fun cv l => match imgs.lookup l with
            | some im => comp cv im
            | none => cv) canvas := by
  intro L
  induction L with
  | nil => intro canvas; rfl
  | cons l ls ih =>
    intro canvas
    rw [overlayPass, List.filter_cons]
    by_cases h1 : (l == "cat") = true
    · rw [if_pos h1, h1]
      simp only [Bool.not_true, Bool.false_and, Bool.false_eq_true, if_false]
      exact ih canvas
    · have h1f : (l == "cat") = false := by
        cases hx : (l == "cat")
        · rfl
        · exact absurd hx h1
      rw [if_neg h1, if_neg (by simp), h1f]
      by_cases h2 : (l == "backgrounds" || l == "base") = true
      · rw [if_pos h2]
        rcases Bool.or_eq_true_iff.mp h2 with hbg | hbs
        · rw [hbg]
          simp only [Bool.not_true, Bool.not_false, Bool.true_and, Bool.false_and,
            Bool.and_false, Bool.false_eq_true, if_false]
          exact ih canvas
        · rw [hbs]
          simp only [Bool.not_true, Bool.not_false, Bool.true_and, Bool.false_and,
            Bool.and_false, Bool.false_eq_true, if_false]
          exact ih canvas
      · rw [if_neg h2]
        have h2f : (l == "backgrounds") = false ∧ (l == "base") = false := by
          cases hbg : (l == "backgrounds")
          · cases hbs : (l == "base")
            · exact ⟨rfl, rfl⟩
            · exact absurd (by rw [hbg, hbs]; rfl) h2
          · exact absurd (by rw [hbg]; rfl) h2
        rw [h2f.1, h2f.2]
        cases hl : imgs.lookup l with
        | some im =>
          have hcont : (imgs.map Prod.fst).contains l = true := by
            rw [← lookup_isSome_iff_contains, hl]; rfl
          simp only [hcont, Bool.not_false, Bool.true_and, Bool.and_true,
            eq_self_iff_true, if_true, List.foldl_cons, hl]
          exact ih (comp canvas im)
        | none =>
          have hcont : (imgs.map Prod.fst).contains l = false := by
            rw [← lookup_isSome_iff_contains, hl]; rfl
          simp only [hcont, Bool.not_false, Bool.true_and, Bool.and_false,
            Bool.false_eq_true, if_false]
          exact ih canvas

theorem overlayPass_false_eq (comp : Img → Img → Img) (imgs : List (String × Img)) :
    ∀ (L : List String) (canvas : Img),
      overlayPass comp imgs false canvas L =
        overlayPass comp imgs true canvas ((L.dropWhile (fun l => !(l == "cat"))).drop 1) := by
  intro L
  induction L with
  | nil => intro canvas; rfl
  | cons l ls ih =>
    intro canvas
    rw [overlayPass, List.dropWhile_cons]
    by_cases h1 : (l == "cat") = true
    · rw [if_pos h1, h1]
      simp
    · have h1f : (l == "cat") = false := by
        cases hx : (l == "cat")
        · rfl
        · exact absurd hx h1
      rw [if_neg h1, if_pos rfl, h1f]
      simpa using ih canvas

/-- C7: the final overlay pass composites exactly the selected layers that
appear strictly after the first `"cat"` in the configured order, excluding
`"backgrounds"`, `"base"` and `"cat"` itself, source-over in configured
order on top of the canvas produced by the earlier stages
(`preOverlay`). -/
theorem overlay_pass_exactly_after_cat (env : Env) (assets : AssetsMap) (i a : Nat) :
    (mkAttempt env assets i a).canvas =
      (((env.layers_order.dropWhile (fun l => !(l == "cat"))).drop 1).filter
          (fun l => !(l == "cat") && !(l == "backgrounds") && !(l == "base")
            && ((mkAttempt env assets i a).imgs.map Prod.fst).contains l)).foldl
        (fun cv l => match (mkAttempt env assets i a).imgs.lookup l with
          | some im => env.alphaComposite cv im
          | none => cv)
        (mkAttempt env assets i a).preOverlay := by
  have hc : (mkAttempt env assets i a).canvas
      = overlayPass env.alphaComposite (mkAttempt env assets i a).imgs false
        (mkAttempt env assets i a).preOverlay env.layers_order := rfl
  rw [hc, overlayPass_false_eq, overlayPass_true_eq]

-- Helper lemmas for the mask policy.

theorem getD_mem_of_lt : ∀ (l : List String) (n : Nat) (d : String),
    n < l.length → l.getD n d ∈ l := by
  intro l
  induction l with
  | nil => intro n d h; exact absurd h (by simp)
  | cons x xs ih =>
    intro n d h
    cases n with
    | zero => exact List.mem_cons_self x xs
    | succ n =>
      have : xs.getD n d ∈ xs := ih n d (by simpa using h)
      exact List.mem_cons_of_mem x this

theorem image_to_mask_eq (img : Img) (t : Nat) :
    image_to_mask img t
      = (if img.hasAlpha then img.alphaCh else img.grayCh).map
          (fun p => if p > t then 255 else 0) := by
  by_cases h : img.hasAlpha <;> simp [image_to_mask, h]

theorem resolveMask_of_masks_nonempty (env : Env) (assets : AssetsMap)
    (g : Nat → Nat) (imgs : List (String × Img)) (k : Nat)
    (m : String) (ms : List String) (hm : assetsGet assets "masks" = m :: ms) :
    resolveMask env assets g imgs k
      = (some ((m :: ms).getD (g k % (m :: ms).length) ""),
         env.loadMaskL ((m :: ms).getD (g k % (m :: ms).length) ""), k + 1) := by
  simp [resolveMask, hm]

theorem resolveMask_of_base (env : Env) (assets : AssetsMap)
    (g : Nat → Nat) (imgs : List (String × Img)) (k : Nat) (b : Img)
    (hm : assetsGet assets "masks" = []) (hb : imgs.lookup "base" = some b) :
    resolveMask env assets g imgs k = (none, image_to_mask b, k) := by
  simp [resolveMask, hm, hb]

theorem resolveMask_of_blank (env : Env) (assets : AssetsMap)
    (g : Nat → Nat) (imgs : List (String × Img)) (k : Nat)
    (hm : assetsGet assets "masks" = []) (hb : imgs.lookup "base" = none) :
    resolveMask env assets g imgs k
      = (none, List.replicate (env.resolution * env.resolution) 0, k) := by
  simp [resolveMask, hm, hb]

/-- C6: the mask of an attempt is resolved by exactly this priority: a
uniform draw from a non-empty `masks` catalog entry, recorded in the
selection under `"mask"`; otherwise, when a layer named `"base"` was
selected, the thresholded alpha channel of its image (thresholded
grayscale conversion when it has no alpha band), pixels strictly above 10
mapping to 255 and the rest to 0; otherwise the all-zero mask at the
target resolution. -/
theorem mask_resolution_policy (env : Env) (assets : AssetsMap) (i a : Nat) :
    match assetsGet assets "masks", (mkAttempt env assets i a).imgs.lookup "base" with
    | m :: ms, _ =>
        ∃ c ∈ m :: ms, (mkAttempt env assets i a).maskChoice = some c
          ∧ (mkAttempt env assets i a).mask = env.loadMaskL c
          ∧ ("mask", c) ∈ (mkAttempt env assets i a).selected
    | [], some b =>
        (mkAttempt env assets i a).maskChoice = none
        ∧ (mkAttempt env assets i a).mask
            = (if b.hasAlpha then b.alphaCh else b.grayCh).map
                (fun p => if p > 10 then 255 else 0)
    | [], none =>
        (mkAttempt env assets i a).maskChoice = none
        ∧ (mkAttempt env assets i a).mask
            = List.replicate (env.resolution * env.resolution) 0 := by
  have hmc : (mkAttempt env assets i a).maskChoice
      = (resolveMask env assets (env.R (attemptSeed env i a))
          ((selectLayers env.loadRGBA assets (env.R (attemptSeed env i a)) 0 env.layers_order).2.1)
          ((selectLayers env.loadRGBA assets (env.R (attemptSeed env i a)) 0 env.layers_order).2.2)).1 := rfl
  have hmask : (mkAttempt env assets i a).mask
      = (resolveMask env assets (env.R (attemptSeed env i a))
          ((selectLayers env.loadRGBA assets (env.R (attemptSeed env i a)) 0 env.layers_order).2.1)
          ((selectLayers env.loadRGBA assets (env.R (attemptSeed env i a)) 0 env.layers_order).2.2)).2.1 := rfl
  have himgs : (mkAttempt env assets i a).imgs
      = (selectLayers env.loadRGBA assets (env.R (attemptSeed env i a)) 0 env.layers_order).2.1 := rfl
  cases hm : assetsGet assets "masks" with
  | cons m ms =>
    have hlen : (env.R (attemptSeed env i a))
        ((selectLayers env.loadRGBA assets (env.R (attemptSeed env i a)) 0 env.layers_order).2.2)
        % (m :: ms).length < (m :: ms).length :=
      Nat.mod_lt _ (by simp)
    have hres := resolveMask_of_masks_nonempty env assets (env.R (attemptSeed env i a))
      ((selectLayers env.loadRGBA assets (env.R (attemptSeed env i a)) 0 env.layers_order).2.1)
      ((selectLayers env.loadRGBA assets (env.R (attemptSeed env i a)) 0 env.layers_order).2.2)
      m ms hm
    simp only [hm]
    refine ⟨(m :: ms).getD ((env.R (attemptSeed env i a))
        ((selectLayers env.loadRGBA assets (env.R (attemptSeed env i a)) 0 env.layers_order).2.2)
        % (m :: ms).length) "", getD_mem_of_lt _ _ _ hlen, ?_, ?_, ?_⟩
    · rw [hmc, hres]
    · rw [hmask, hres]
    · have hsel : (mkAttempt env assets i a).selected
          = (match (resolveMask env assets (env.R (attemptSeed env i a))
              ((selectLayers env.loadRGBA assets (env.R (attemptSeed env i a)) 0 env.layers_order).2.1)
              ((selectLayers env.loadRGBA assets (env.R (attemptSeed env i a)) 0 env.layers_order).2.2)).1 with
            | some mc =>
              (selectLayers env.loadRGBA assets (env.R (attemptSeed env i a)) 0 env.layers_order).1
                ++ [("mask", mc)]
            | none =>
              (selectLayers env.loadRGBA assets (env.R (attemptSeed env i a)) 0 env.layers_order).1)
            ++ [("color", (resolveColor env (env.R (attemptSeed env i a))
                (resolveMask env assets (env.R (attemptSeed env i a))
                  ((selectLayers env.loadRGBA assets (env.R (attemptSeed env i a)) 0 env.layers_order).2.1)
                  ((selectLayers env.loadRGBA assets (env.R (attemptSeed env i a)) 0 env.layers_order).2.2)).2.2).1)] := rfl
      rw [hsel, hres]
      simp
  | nil =>
    cases hb : (selectLayers env.loadRGBA assets (env.R (attemptSeed env i a)) 0 env.layers_order).2.1.lookup "base" with
    | some b =>
      have hres := resolveMask_of_base env assets (env.R (attemptSeed env i a))
        ((selectLayers env.loadRGBA assets (env.R (attemptSeed env i a)) 0 env.layers_order).2.1)
        ((selectLayers env.loadRGBA assets (env.R (attemptSeed env i a)) 0 env.layers_order).2.2)
        b hm hb
      rw [himgs]
      simp only [hm, hb]
      exact ⟨by rw [hmc, hres], by rw [hmask, hres, image_to_mask_eq]⟩
    | none =>
      have hres := resolveMask_of_blank env assets (env.R (attemptSeed env i a))
        ((selectLayers env.loadRGBA assets (env.R (attemptSeed env i a)) 0 env.layers_order).2.1)
        ((selectLayers env.loadRGBA assets (env.R (attemptSeed env i a)) 0 env.layers_order).2.2)
        hm hb
      rw [himgs]
      simp only [hm, hb]
      exact ⟨by rw [hmc, hres], by rw [hmask, hres]⟩

-- Congruence lemmas: the run depends on its environment only through the
-- attempt body, the loop bounds and the clock.

theorem attemptsFrom_congr (env1 env2 : Env) (assets : AssetsMap)
    (seen : List String) (i : Nat)
    (hmk : ∀ a, mkAttempt env1 assets i a = mkAttempt env2 assets i a) :
    ∀ r a, attemptsFrom env1 assets seen i a r = attemptsFrom env2 assets seen i a r := by
  intro r
  induction r with
  | zero => intro a; rfl
  | succ r ih =>
    intro a
    simp only [attemptsFrom, hmk a]
    by_cases h : (mkAttempt env2 assets i a).hash ∈ seen
    · rw [if_pos h, if_pos h]
      exact ih (a + 1)
    · rw [if_neg h, if_neg h]

theorem stepItem_congr (env1 env2 : Env) (assets : AssetsMap) (st : RunState)
    (hmk : ∀ a, mkAttempt env1 assets st.i a = mkAttempt env2 assets st.i a)
    (hmax : env1.max_attempts = env2.max_attempts)
    (hnow : env1.now = env2.now) :
    stepItem env1 assets st 1 env1.max_attempts
      = stepItem env2 assets st 1 env2.max_attempts := by
  rw [stepItem, stepItem, hmax,
    attemptsFrom_congr env1 env2 assets st.seen st.i hmk env2.max_attempts 1]
  cases attemptsFrom env2 assets st.seen st.i 1 env2.max_attempts with
  | none => rfl
  | some att => simp [acceptAttempt, hnow]

theorem runLoop_congr (env1 env2 : Env)
    (hmk : ∀ (assets : AssetsMap) (i a : Nat),
      mkAttempt env1 assets i a = mkAttempt env2 assets i a)
    (hnum : env1.num = env2.num) (hstart : env1.start_id = env2.start_id)
    (hmax : env1.max_attempts = env2.max_attempts) (hnow : env1.now = env2.now) :
    ∀ (assets : AssetsMap) (mp fuel : Nat) (st : RunState),
      runLoop env1 assets mp fuel st = runLoop env2 assets mp fuel st := by
  intro assets mp fuel
  induction fuel with
  | zero => intro st; rfl
  | succ fuel ih =>
    intro st
    rw [runLoop, runLoop, hnum, hstart,
      stepItem_congr env1 env2 assets st (fun a => hmk assets st.i a) hmax hnow]
    by_cases h : st.generated < env2.num ∧ st.i - env2.start_id < mp
    · rw [if_pos h, if_pos h]
      cases stepItem env2 assets st 1 env2.max_attempts with
      | none => rfl
      | some st2 => exact ih st2
    · rw [if_neg h, if_neg h]

theorem generate_collection_congr (env1 env2 : Env)
    (hmk : ∀ (assets : AssetsMap) (i a : Nat),
      mkAttempt env1 assets i a = mkAttempt env2 assets i a)
    (hlay : env1.layers_order = env2.layers_order)
    (hli : env1.listImages = env2.listImages)
    (hnum : env1.num = env2.num) (hstart : env1.start_id = env2.start_id)
    (hmax : env1.max_attempts = env2.max_attempts) (hnow : env1.now = env2.now) :
    generate_collection env1 = generate_collection env2 := by
  have hga : gather_assets env1 = gather_assets env2 := by
    rw [gather_assets, gather_assets, hlay, hli]
  simp only [generate_collection]
  rw [hga, hlay, hnum, hstart,
    runLoop_congr env1 env2 hmk hnum hstart hmax hnow]

/-- C10: an unseeded run is identical to a run with seed 0 (the only use
of the seed in any choice is `(seed or 0)` in the per-attempt source), and
the global random source built at the start of the run is never used: its
behaviour does not influence any output. -/
theorem unseeded_run_equals_seed_zero (env : Env) (h : env.seed = none) :
    generate_collection env = generate_collection { env with seed := some 0 }
    ∧ ∀ G G2 : Option Nat → Nat → Nat,
        generate_collection { env with Rglobal := G }
          = generate_collection { env with Rglobal := G2 } := by
  constructor
  · apply generate_collection_congr
    · intro assets i a
      have e1 : mkAttempt env assets i a
          = mkAttemptWith env assets (env.R ((env.seed.getD 0) ^^^ i ^^^ a)) := rfl
      have e2 : mkAttempt { env with seed := some 0 } assets i a
          = mkAttemptWith env assets
              (env.R (((some 0 : Option Nat).getD 0) ^^^ i ^^^ a)) := rfl
      rw [e1, e2, h]
      rfl
    · rfl
    · rfl
    · rfl
    · rfl
    · rfl
    · rfl
  · intro G G2
    apply generate_collection_congr
    · intro assets i a
      rfl
    · rfl
    · rfl
    · rfl
    · rfl
    · rfl
    · rfl

/-- Witness for C10 at a concrete unseeded environment. -/
theorem unseeded_run_equals_seed_zero_witness :
    generate_collection witEnvB = generate_collection { witEnvB with seed := some 0 } :=
  (unseeded_run_equals_seed_zero witEnvB rfl).1

-- Determinism up to timestamps.

theorem stripSt_fields (st1 st2 : RunState) (h : stripSt st1 = stripSt st2) :
    st1.seen = st2.seen
    ∧ st1.metadata.map stripTime = st2.metadata.map stripTime
    ∧ st1.generated = st2.generated ∧ st1.i = st2.i
    ∧ st1.files = st2.files ∧ st1.tick = st2.tick := by
  have h1 := congrArg RunState.seen h
  have h2 := congrArg RunState.metadata h
  have h3 := congrArg RunState.generated h
  have h4 := congrArg RunState.i h
  have h5 := congrArg RunState.files h
  have h6 := congrArg RunState.tick h
  simp only [stripSt] at h1 h2 h3 h4 h5 h6
  exact ⟨h1, h2, h3, h4, h5, h6⟩

theorem acceptAttempt_strip (env1 env2 : Env) (st1 st2 : RunState)
    (att : AttemptResult) (h : stripSt st1 = stripSt st2) :
    stripSt (acceptAttempt env1 st1 att) = stripSt (acceptAttempt env2 st2 att) := by
  obtain ⟨hseen, hmd, hgen, hi, hfiles, htick⟩ := stripSt_fields st1 st2 h
  simp only [stripSt, acceptAttempt, stripTime, List.map_append, List.map_cons,
    List.map_nil, RunState.mk.injEq]
  refine ⟨by rw [hseen], ?_, by rw [hgen], by rw [hi], by rw [hfiles, hi], by rw [htick]⟩
  rw [hmd, hi]

theorem runLoop_strip (env1 env2 : Env) (assets : AssetsMap) (mp : Nat)
    (hmk : ∀ i a, mkAttempt env1 assets i a = mkAttempt env2 assets i a)
    (hnum : env1.num = env2.num) (hstart : env1.start_id = env2.start_id)
    (hmax : env1.max_attempts = env2.max_attempts) :
    ∀ (fuel : Nat) (st1 st2 : RunState), stripSt st1 = stripSt st2 →
      stripSt (runLoop env1 assets mp fuel st1)
        = stripSt (runLoop env2 assets mp fuel st2) := by
  intro fuel
  induction fuel with
  | zero => intro st1 st2 h; exact h
  | succ fuel ih =>
    intro st1 st2 h
    obtain ⟨hseen, hmd, hgen, hi, hfiles, htick⟩ := stripSt_fields st1 st2 h
    rw [runLoop, runLoop]
    have hstep : stepItem env1 assets st1 1 env1.max_attempts
        = match attemptsFrom env2 assets st2.seen st2.i 1 env2.max_attempts with
          | some att => some (acceptAttempt env1 st1 att)
          | none => none := by
      rw [stepItem, hseen, hi, hmax,
        attemptsFrom_congr env1 env2 assets st2.seen st2.i
          (fun a => hi ▸ hmk st1.i a) env2.max_attempts 1]
    by_cases hg : st1.generated < env1.num ∧ st1.i - env1.start_id < mp
    · have hg2 : st2.generated < env2.num ∧ st2.i - env2.start_id < mp := by
        rw [← hgen, ← hi, ← hnum, ← hstart]
        exact hg
      rw [if_pos hg, if_pos hg2, hstep]
      simp only [stepItem]
      cases hat : attemptsFrom env2 assets st2.seen st2.i 1 env2.max_attempts with
      | none => exact h
      | some att => exact ih _ _ (acceptAttempt_strip env1 env2 st1 st2 att h)
    · have hg2 : ¬ (st2.generated < env2.num ∧ st2.i - env2.start_id < mp) := by
        rw [← hgen, ← hi, ← hnum, ← hstart]
        exact hg
      rw [if_neg hg, if_neg hg2]
      exact h

theorem map_hash_of_map_strip (l1 l2 : List Metadata)
    (h : l1.map stripTime = l2.map stripTime) :
    l1.map (fun m => m.hash) = l2.map (fun m => m.hash) := by
  have h2 := congrArg (List.map (fun m => m.hash)) h
  rw [List.map_map, List.map_map] at h2
  exact h2

/-- C2: two runs with the same seed, assets and configuration but
different clocks produce the identical hash sequence, identical metadata
up to the `generated_at` field, the same generated count, files and
warnings; and the attempt body depends on the random source only through
the stream seeded with `(seed or 0) XOR edition XOR attempt`. -/
theorem deterministic_modulo_timestamp (env : Env) (t1 t2 : Nat → String) :
    ((generate_collection { env with now := t1 }).index.map (fun m => m.hash)
      = (generate_collection { env with now := t2 }).index.map (fun m => m.hash))
    ∧ ((generate_collection { env with now := t1 }).index.map stripTime
      = (generate_collection { env with now := t2 }).index.map stripTime)
    ∧ (generate_collection { env with now := t1 }).generated
        = (generate_collection { env with now := t2 }).generated
    ∧ (generate_collection { env with now := t1 }).files
        = (generate_collection { env with now := t2 }).files
    ∧ (generate_collection { env with now := t1 }).warnings
        = (generate_collection { env with now := t2 }).warnings
    ∧ ∀ (R2 : Nat → Nat → Nat) (assets : AssetsMap) (i a : Nat),
        R2 ((env.seed.getD 0) ^^^ i ^^^ a) = env.R ((env.seed.getD 0) ^^^ i ^^^ a) →
        mkAttempt { env with R := R2 } assets i a = mkAttempt env assets i a := by
  have hstrip := runLoop_strip { env with now := t1 } { env with now := t2 }
    (gather_assets env)
    (compute_max_combinations (gather_assets env) env.layers_order)
    (fun _ _ => rfl) rfl rfl rfl env.num
    { seen := [], metadata := [], generated := 0, i := env.start_id
      files := [], tick := 0 }
    { seen := [], metadata := [], generated := 0, i := env.start_id
      files := [], tick := 0 }
    rfl
  have hidx1 : (generate_collection { env with now := t1 }).index
      = (runLoop { env with now := t1 } (gather_assets env)
          (compute_max_combinations (gather_assets env) env.layers_order) env.num
          { seen := [], metadata := [], generated := 0, i := env.start_id
            files := [], tick := 0 }).metadata := rfl
  have hidx2 : (generate_collection { env with now := t2 }).index
      = (runLoop { env with now := t2 } (gather_assets env)
          (compute_max_combinations (gather_assets env) env.layers_order) env.num
          { seen := [], metadata := [], generated := 0, i := env.start_id
            files := [], tick := 0 }).metadata := rfl
  have hmd := congrArg RunState.metadata hstrip
  have hgenr := congrArg RunState.generated hstrip
  have hfr := congrArg RunState.files hstrip
  simp only [stripSt] at hgenr hfr
  refine ⟨?_, ?_, ?_, ?_, ?_, ?_⟩
  · rw [hidx1, hidx2]
    exact map_hash_of_map_strip _ _ hmd
  · rw [hidx1, hidx2]
    exact hmd
  · show (runLoop { env with now := t1 } (gather_assets env)
        (compute_max_combinations (gather_assets env) env.layers_order) env.num
        { seen := [], metadata := [], generated := 0, i := env.start_id
          files := [], tick := 0 }).generated = _
    exact hgenr
  · show (runLoop { env with now := t1 } (gather_assets env)
        (compute_max_combinations (gather_assets env) env.layers_order) env.num
        { seen := [], metadata := [], generated := 0, i := env.start_id
          files := [], tick := 0 }).files ++ ["metadata_index.json"] = _
    rw [hfr]
    rfl
  · rfl
  · intro R2 assets i a hR
    have e1 : mkAttempt { env with R := R2 } assets i a
        = mkAttemptWith env assets (R2 ((env.seed.getD 0) ^^^ i ^^^ a)) := rfl
    rw [e1, hR]
    rfl

/-- Witness for C2 at a concrete environment and two distinct clocks. -/
theorem deterministic_modulo_timestamp_witness :
    ((generate_collection { witEnvA with now := fun _ => "A" }).index.map (fun m => m.hash)
      = (generate_collection { witEnvA with now := fun _ => "B" }).index.map (fun m => m.hash))
    ∧ mkAttempt { witEnvA with R := witEnvA.R } [] 1 1 = mkAttempt witEnvA [] 1 1 := by
  have h := deterministic_modulo_timestamp witEnvA (fun _ => "A") (fun _ => "B")
  exact ⟨h.1, h.2.2.2.2.2 witEnvA.R [] 1 1 rfl⟩

end NFTGen
